import Mathlib

/-!
Verification of the ebuild text generation/update engine of pycargoebuild
(`pycargoebuild/ebuild.py`), via a shallow embedding in Lean 4.

Strings are modelled as Lean `String`s (lists of characters); Python machine
behaviour that the engine relies on (`str.split`, `re.sub` with the four
anchored patterns, `shlex.quote`, `str.format` template filling) is embedded
faithfully from the source.  Parts of the repository that live outside
`ebuild.py` — the `Crate` classes from `cargo.py`, the `license_expression`
library, `format_license_var` and `spdx_to_ebuild` — enter as abstract data
(crates carry their already-computed entry strings) or as spec-modelled
definitions, each marked as such in its doc comment.
-/

namespace Pycargoebuild

/-- The apostrophe character (Python `'`), written numerically. -/
def squote : Char := Char.ofNat 39

/-- Python ASCII whitespace, the characters stripped by `str.split()` and
`str.lstrip()`: space, tab, newline, carriage return, vertical tab, form
feed. -/
def isPyWs (c : Char) : Bool :=
  c == ' ' || c == '\t' || c == '\n' || c == '\r' ||
    c == Char.ofNat 11 || c == Char.ofNat 12

/-- Helper of `collapse_whitespace`: Python `str.split()` on a character
list, splitting on runs of whitespace and discarding empty fields.  `acc`
holds the current word, reversed. -/
def pySplitGo : List Char → List Char → List (List Char)
  | [], acc => if acc = [] then [] else [acc.reverse]
  | c :: cs, acc =>
    if isPyWs c then
      if acc = [] then pySplitGo cs [] else acc.reverse :: pySplitGo cs []
    else
      pySplitGo cs (c :: acc)

/-- Python `value.split()` (split on whitespace runs, no empty fields). -/
def pySplit (s : String) : List String :=
  (pySplitGo s.data []).map String.mk

/-- Python `sep.join(parts)`. -/
def pyJoin (sep : String) : List String → String
  | [] => ""
  | [a] => a
  | a :: b :: rest => a ++ sep ++ pyJoin sep (b :: rest)

/-- Function `collapse_whitespace` from ebuild.py: collapse sequences of whitespace
into a single space (`" ".join(value.split())`). -/
def collapse_whitespace (s : String) : String :=
  pyJoin " " (pySplit s)

/-- The four characters of `DQUOTE_SPECIAL_RE`: dollar, backtick, double
quote, backslash. -/
def isDquoteSpecial (c : Char) : Bool :=
  c == '$' || c == Char.ofNat 96 || c == '"' || c == '\\'

/-- Function `bash_dquote_escape` from ebuild.py: backslash-escape every character
with special meaning inside bash double quotes. -/
def bash_dquote_escape (s : String) : String :=
  String.mk ((s.data.map (fun c =>
    if isDquoteSpecial c then ['\\', c] else [c])).flatten)

/-- Upper-case hexadecimal digit for a value below 16. -/
def hexDigit (n : Nat) : Char :=
  if n < 10 then Char.ofNat (48 + n) else Char.ofNat (55 + (n - 10))

/-- Python `urllib.parse.quote_plus` applied to a single character matched by
`DQUOTE_SPECIAL_PLUS_WS_RE` (all such characters are ASCII): a space
becomes `+`, anything else becomes a percent escape. -/
def quotePlusChar (c : Char) : List Char :=
  if c = ' ' then ['+']
  else ['%', hexDigit (c.toNat / 16), hexDigit (c.toNat % 16)]

/-- Function `url_dquote_escape` from ebuild.py: URL-encode whitespace and bash
special characters (`DQUOTE_SPECIAL_PLUS_WS_RE` substitution). -/
def url_dquote_escape (s : String) : String :=
  String.mk ((s.data.map (fun c =>
    if isDquoteSpecial c || isPyWs c then quotePlusChar c else [c])).flatten)

/-- Characters Python's `shlex.quote` considers safe: ASCII word characters
(letters, digits, underscore) plus at-sign, percent, plus, equals, colon,
comma, dot, slash and dash. -/
def shlexSafe (c : Char) : Bool :=
  (c.isAlpha && c.toNat < 128) || c.isDigit || c == '_' || c == '@' ||
    c == '%' || c == '+' || c == '=' || c == ':' || c == ',' ||
    c == '.' || c == '/' || c == '-'

/-- Python `shlex.quote`: return the string unchanged when all characters
are safe, otherwise wrap it in single quotes, replacing every embedded
single quote by the five-character sequence quote-dquote-quote-dquote-quote. -/
def shlexQuote (s : String) : String :=
  if s = "" then String.mk [squote, squote]
  else if s.data.all shlexSafe then s
  else String.mk ([squote] ++
    (s.data.map (fun c =>
      if c = squote then [squote, '"', squote, '"', squote] else [c])).flatten ++
    [squote])

/-- A dependency crate, as classified by ebuild.py.  The entry strings are
computed by external collaborators (`cargo.py`, which is outside the
verified source): `FileCrate` carries its `crate_entry`, `GitCrate` carries
its `name` and the result of `get_git_crate_entry(distdir)`. -/
inductive Crate where
  | FileCrate (name : String) (entry : String)
  | GitCrate (name : String) (entry : String)
deriving DecidableEq, Repr

/-- True for the git variant of `Crate`. -/
def Crate.isGit : Crate → Bool
  | .FileCrate _ _ => false
  | .GitCrate _ _ => true

/-- The `crate_entry` of a `FileCrate`, `none` for a `GitCrate` (the
`isinstance(c, FileCrate)` filter of `get_CRATES`). -/
def Crate.fileEntry : Crate → Option String
  | .FileCrate _ e => some e
  | .GitCrate _ _ => none

/-- The rendered `GIT_CRATES` associative-array line for a `GitCrate`
(`f"\t[{c.name}]={shlex.quote(c.get_git_crate_entry(distdir))}"`), `none`
for a `FileCrate`. -/
def Crate.gitLine : Crate → Option String
  | .FileCrate _ _ => none
  | .GitCrate n e => some ("\t[" ++ n ++ "]=" ++ shlexQuote e)

/-- Record `PackageMetadata` (from `cargo.py`, outside the verified source): the
three optional fields that ebuild.py reads. -/
structure PackageMetadata where
  description : Option String
  homepage : Option String
  license : Option String
deriving DecidableEq, Repr

/-- Lexicographic comparison of character lists by code point, the order
Python uses to compare strings. -/
def charsLe : List Char → List Char → Bool
  | [], _ => true
  | _ :: _, [] => false
  | a :: as, b :: bs =>
    if a < b then true
    else if b < a then false
    else charsLe as bs

/-- Python's string order: lexicographic by code point. -/
def strLe (a b : String) : Prop := charsLe a.data b.data = true

instance : DecidableRel strLe :=
  fun a b => Bool.decEq (charsLe a.data b.data) true

/-- Python `sorted` on strings: lexicographic sort by code point. -/
def sortStrs (l : List String) : List String :=
  List.insertionSort strLe l

/-- The sorted tab-indented entry lines of the `CRATES=` value
(`sorted(f"\t{c.crate_entry}" for c in crates if isinstance(c, FileCrate))`). -/
def cratesLines (crates : List Crate) : List String :=
  sortStrs ((crates.filterMap Crate.fileEntry).map (fun e => "\t" ++ e))

/-- Function `get_CRATES` from ebuild.py: the value of `CRATES` for the given crate
list; a bare newline for an empty list (cargo.eclass rejects empty CRATES). -/
def get_CRATES (crates : List Crate) : String :=
  if crates = [] then "\n"
  else "\n" ++ pyJoin "\n" (cratesLines crates) ++ "\n"

/-- The sorted lines of the `GIT_CRATES` associative array. -/
def gitCratesLines (crates : List Crate) : List String :=
  sortStrs (crates.filterMap Crate.gitLine)

/-- Function `get_GIT_CRATES` from ebuild.py: the complete `GIT_CRATES` assignment
for the given crate list, or the empty string when there are no git
crates. -/
def get_GIT_CRATES (crates : List Crate) : String :=
  let values := pyJoin "\n" (gitCratesLines crates)
  if values ≠ "" then
    "\n\ndeclare -A GIT_CRATES=(\n" ++ values ++ "\n)"
  else ""

/-- Modelled from the spec: the combination `parse(" AND ".join(f"( {x} )"
for x in crate_licenses)).simplify()` performed by the external
`license_expression` library.  Parsing the empty combination yields `none`
(the spec: "parsing an empty combined string must yield an empty result");
simplification is deterministic and independent of the enumeration order of
the input set, modelled as the canonical duplicate-free sorted list of the
AND-ed operands. -/
def simplifyAnd (ops : List String) : Option (List String) :=
  if ops = [] then none else some (sortStrs ops.dedup)

/-- Function `get_package_LICENSE` from ebuild.py.  The strict SPDX parse,
simplification and `format_license_var`/`spdx_to_ebuild` rendering pipeline
lives in external libraries; it enters as the abstract deterministic
function `pkgFmt`. -/
def get_package_LICENSE (pkgFmt : String → String) (licenseStr : Option String) :
    String :=
  match licenseStr with
  | some l => pkgFmt l
  | none => ""

/-- Function `get_crate_LICENSE` from ebuild.py.  `licenseOf` abstracts the per-crate
license lookup (`license_overrides` map or `get_license_from_crate` archive
read, both resolved outside this function's logic); its `none` results are
discarded, the remaining strings form a set (modelled as a duplicate-free
enumeration), which is AND-combined and simplified (`simplifyAnd`) and then
rendered by the abstract formatter `fmt` (`spdx_to_ebuild` composed with
`format_license_var`).  A leading space is prepended when the rendered
value is not multi-line, exactly as in the source. -/
def get_crate_LICENSE (licenseOf : Crate → Option String)
    (fmt : List String → String) (crates : List Crate) : String :=
  let contributed := (crates.filterMap licenseOf).dedup
  match simplifyAnd contributed with
  | none => ""
  | some ops =>
    let s := fmt ops
    if s.data.head? = some '\n' then s else " " ++ s

/-- Template `EBUILD_TEMPLATE_CRATE_TARBALL` rendered with the tarball name, or the
empty string when `crate_tarball` is not set (the `opt_crate_tarball`
field of the template). -/
def tarballPart : Option String → String
  | none => ""
  | some name =>
    "\nif [[ ${PKGBUMPING} != ${PVR} ]]; then\n\tSRC_URI+=\"\n\t\t" ++
      name ++ "\n\t\"\nfi"

/-- The ebuild template of ebuild.py (`EBUILD_TEMPLATE_START`, optionally
`EBUILD_TEMPLATE_CRATE_LICENSE`, then `EBUILD_TEMPLATE_END`) rendered via
`str.format` with the already-computed field values. -/
def ebuildText (year ver cratesVal gitVal desc homepage tarball pkgLic : String)
    (crateLicense : Bool) (licVal : String) : String :=
  "# Copyright " ++ year ++ " Gentoo Authors\n" ++
  "# Distributed under the terms of the GNU General Public License v2\n" ++
  "\n" ++
  "# Autogenerated by pycargoebuild " ++ ver ++ "\n" ++
  "\n" ++
  "EAPI=8\n" ++
  "\n" ++
  "CRATES=\"" ++ cratesVal ++ "\"" ++ gitVal ++ "\n" ++
  "\n" ++
  "inherit cargo\n" ++
  "\n" ++
  "DESCRIPTION=\"" ++ desc ++ "\"\n" ++
  "HOMEPAGE=\"" ++ homepage ++ "\"\n" ++
  "SRC_URI=\"\n\t${CARGO_CRATE_URIS}\n\"" ++ tarball ++ "\n" ++
  "\n" ++
  "LICENSE=\"" ++ pkgLic ++ "\"\n" ++
  (if crateLicense then
    "# Dependent crate licenses\nLICENSE+=\"" ++ licVal ++ "\"\n"
   else "") ++
  "SLOT=\"0\"\nKEYWORDS=\"~amd64\"\n"

/-- Function `get_ebuild` from ebuild.py: render a fresh ebuild document.  `year`
and `ver` are the ambient inputs `datetime.date.today().year` and
`__version__`; `pkgFmt`, `licenseOf` and `fmt` abstract the external
license pipeline as in `get_package_LICENSE` and `get_crate_LICENSE`.
When `crateTarball` is set the `CRATES` block is computed from the empty
crate list. -/
def get_ebuild (year ver : String) (pkgFmt : String → String)
    (licenseOf : Crate → Option String) (fmt : List String → String)
    (pkg : PackageMetadata) (crates : List Crate) (crateLicense : Bool)
    (crateTarball : Option String) : String :=
  ebuildText year ver
    (get_CRATES (if crateTarball.isSome then [] else crates))
    (get_GIT_CRATES crates)
    (bash_dquote_escape (collapse_whitespace (pkg.description.getD "")))
    (url_dquote_escape (pkg.homepage.getD ""))
    (tarballPart crateTarball)
    (get_package_LICENSE pkgFmt pkg.license)
    crateLicense
    (get_crate_LICENSE licenseOf fmt crates)

/-! ## The anchored substitution engine

Python's `re.sub` with the four anchored patterns of ebuild.py is embedded
as a left-to-right scan over the character list.  A matcher receives the
"at line start" flag (true at position 0 of the scan and right after a
newline — the `^` anchor under `re.MULTILINE`) and the remaining text; it
returns the replacement text together with the number of characters the
match consumed.  All four patterns of ebuild.py require a non-empty
literal, so a successful match always consumes at least one character. -/

/-- Lazy body search shared by the four patterns: the regex tail
`.*?<delim>$` under `re.DOTALL | re.MULTILINE`.  Returns the number of
characters up to and including the *first* occurrence of `delim` that is
followed by a newline or the end of the string. -/
def findCloseLen (delim : Char) : List Char → Option Nat
  | [] => none
  | c :: cs =>
    if c == delim && (cs.isEmpty || cs.head? == some '\n') then some 1
    else (findCloseLen delim cs).map (· + 1)

/-- Pattern `CRATES_RE` as a matcher, fused with the `CountingSubst` replacement
`match.group("start") + repl() + match.group("delim")`: anchored at a line
start, the literal `CRATES=` followed by a single or double quote, then the
lazy body up to the same quote at an end of line.  Returns the replacement
(prefix, new value, closing quote) and the consumed length. -/
def cratesMatcher (val : List Char) (atStart : Bool) (s : List Char) :
    Option (List Char × Nat) :=
  if !atStart then none
  else if !("CRATES=".data.isPrefixOf s) then none
  else
    match s.drop 7 with
    | [] => none
    | d :: rest =>
      if d == '"' || d == squote then
        match findCloseLen d rest with
        | some k => some ("CRATES=".data ++ d :: val ++ [d], 8 + k)
        | none => none
      else none

/-- The literal of `GIT_CRATES_RE` after the whitespace group. -/
def gitLit : List Char := "declare -A GIT_CRATES=(".data

/-- The `GitCratesSubst` replacement: the matched whitespace group followed
by the left-stripped new block, or nothing at all when the new block is
empty. -/
def gitRepl (ws val : List Char) : List Char :=
  match val.dropWhile isPyWs with
  | [] => []
  | stripped => ws ++ stripped

/-- Attempt of `GIT_CRATES_RE` after a whitespace group of length `n` has
been consumed: the literal `declare -A GIT_CRATES=(` then the lazy body up
to a closing parenthesis at an end of line. -/
def gitAfterWs (val : List Char) (ws : List Char) (n : Nat) (rest : List Char) :
    Option (List Char × Nat) :=
  if gitLit.isPrefixOf rest then
    match findCloseLen ')' (rest.drop gitLit.length) with
    | some k => some (gitRepl ws val, n + gitLit.length + k)
    | none => none
  else none

/-- Pattern `GIT_CRATES_RE` as a matcher (no `^` anchor): a newline, optionally a
second newline (tried first, as the regex `\n\n?` is greedy), the literal
`declare -A GIT_CRATES=(`, then the lazy body up to `)` at an end of
line. -/
def gitMatcher (val : List Char) (_ : Bool) (s : List Char) :
    Option (List Char × Nat) :=
  match s with
  | '\n' :: rest =>
    match rest with
    | '\n' :: rest2 =>
      match gitAfterWs val ['\n', '\n'] 2 rest2 with
      | some r => some r
      | none => gitAfterWs val ['\n'] 1 rest
    | _ => gitAfterWs val ['\n'] 1 rest
  | _ => none

/-- The literal prefix of `CRATE_LICENSE_RE` (marker comment plus the
`LICENSE+=` opener), up to the quote character. -/
def licLit : List Char := "# Dependent crate licenses\nLICENSE+=".data

/-- Pattern `CRATE_LICENSE_RE` as a matcher, fused with the `CountingSubst`
replacement: anchored at a line start, the marker comment, `LICENSE+=`,
a quote, then the lazy body up to the same quote at an end of line. -/
def licMatcher (val : List Char) (atStart : Bool) (s : List Char) :
    Option (List Char × Nat) :=
  if !atStart then none
  else if !(licLit.isPrefixOf s) then none
  else
    match s.drop licLit.length with
    | [] => none
    | d :: rest =>
      if d == '"' || d == squote then
        match findCloseLen d rest with
        | some k => some (licLit ++ d :: val ++ [d], licLit.length + 1 + k)
        | none => none
      else none

/-- Pattern `GIT_CRATES_APPEND_RE` as a matcher: the same anchored span as
`CRATES_RE`, but the whole match is the `start` group and the `delim`
group is empty, so the replacement is the matched text with the new
`GIT_CRATES` block appended after the closing quote. -/
def appendMatcher (gitVal : List Char) (atStart : Bool) (s : List Char) :
    Option (List Char × Nat) :=
  if !atStart then none
  else if !("CRATES=".data.isPrefixOf s) then none
  else
    match s.drop 7 with
    | [] => none
    | d :: rest =>
      if d == '"' || d == squote then
        match findCloseLen d rest with
        | some k => some (s.take (8 + k) ++ gitVal, 8 + k)
        | none => none
      else none

/-- One step of `re.sub`: scan left to right; at each position first try
the matcher (with the `^`-anchor flag), emit its replacement and skip the
matched span on success, otherwise keep the character and move on.  `fuel`
is an upper bound on the number of scan steps (every step consumes at
least one character); it is instantiated with the length of the text. -/
def scanGo (m : Bool → List Char → Option (List Char × Nat)) :
    Nat → Bool → List Char → Nat × List Char
  | _, _, [] => (0, [])
  | 0, _, s => (0, s)
  | Nat.succ fuel, atStart, c :: cs =>
    match m atStart (c :: cs) with
    | some (r, k) =>
      let q := scanGo m fuel false (cs.drop (k - 1))
      (q.1 + 1, r ++ q.2)
    | none =>
      let q := scanGo m fuel (c == '\n') cs
      (q.1, c :: q.2)

/-- Python `regex.sub(repl, text)` with a counting replacement: the number of
matches together with the substituted text.  The scan starts in
line-start state (`^` matches at position 0). -/
def reSub (m : Bool → List Char → Option (List Char × Nat))
    (st : Bool) (s : List Char) : Nat × List Char :=
  scanGo m s.length st s

/-- The error message of `CountingSubst.assert_count`. -/
def assertMsg (desc : String) (count expected : Nat) : String :=
  desc ++ " matched " ++ toString count ++ " times, " ++
    toString expected ++ " expected"

/-- The body of `update_ebuild`, over character lists: run the three
substitutions in order, check the match counts (`CRATES=` exactly once,
the crate-license block once when enabled and never otherwise), then
either verify the `GIT_CRATES` count or append a freshly built block
after the `CRATES=` assignment when one is needed but none was found. -/
def updateCore (cratesVal gitVal licVal : List Char) (crateLicense : Bool)
    (doc : List Char) : Except String (List Char) :=
  let r1 := reSub (cratesMatcher cratesVal) true doc
  let r2 := reSub (gitMatcher gitVal) true r1.2
  let r3 := reSub (licMatcher licVal) true r2.2
  let licExpected : Nat := if crateLicense then 1 else 0
  if r1.1 ≠ 1 then .error (assertMsg "CRATES=" r1.1 1)
  else if r3.1 ≠ licExpected then
    .error (assertMsg "Crate LICENSE+= (with marker comment)" r3.1 licExpected)
  else if r2.1 = 0 then
    if gitVal ≠ [] then
      let r4 := reSub (appendMatcher gitVal) true r3.2
      if r4.1 ≠ 1 then
        .error (assertMsg "CRATES= (while appending GIT_CRATES=)" r4.1 1)
      else .ok r4.2
    else .ok r3.2
  else if r2.1 ≠ 1 then .error (assertMsg "GIT_CRATES=" r2.1 1)
  else .ok r3.2

/-- Function `update_ebuild` from ebuild.py: update the `CRATES`, `GIT_CRATES` and
crate `LICENSE+=` regions of an existing ebuild document.  The replacement
values are computed exactly as in the source (`get_CRATES` on the empty
list when a crate tarball is used, `get_GIT_CRATES`, `get_crate_LICENSE`),
and a `RuntimeError` is modelled as `Except.error` with the
`assert_count` message. -/
def update_ebuild (licenseOf : Crate → Option String)
    (fmt : List String → String) (ebuild : String) (crates : List Crate)
    (crateLicense : Bool) (crateTarball : Option String) : Except String String :=
  match updateCore
      (get_CRATES (if crateTarball.isSome then [] else crates)).data
      (get_GIT_CRATES crates).data
      (get_crate_LICENSE licenseOf fmt crates).data
      crateLicense ebuild.data with
  | .ok l => .ok (String.mk l)
  | .error e => .error e

/-- The `^`-anchor state of the scan after traversing a character list:
unchanged over an empty list, otherwise determined by the last character
(true exactly after a newline). -/
def endFlag (st : Bool) : List Char → Bool
  | [] => st
  | c :: cs => endFlag (c == '\n') cs

/-- The matcher `m` finds no match at any position while the scan
traverses `p` (with `s` the text that follows `p`, visible to matches that
would start inside `p`), starting in anchor state `st`. -/
def noFireThrough (m : Bool → List Char → Option (List Char × Nat)) :
    Bool → List Char → List Char → Bool
  | _, [], _ => true
  | st, c :: cs, s =>
    (m st (c :: (cs ++ s))).isNone && noFireThrough m (c == '\n') cs s

instance : DecidableEq (Except String String) := fun
  | .ok a, .ok b =>
    if h : a = b then .isTrue (by rw [h])
    else .isFalse (fun hc => h (Except.ok.inj hc))
  | .ok _, .error _ => .isFalse (fun hc => Except.noConfusion hc)
  | .error _, .ok _ => .isFalse (fun hc => Except.noConfusion hc)
  | .error a, .error b =>
    if h : a = b then .isTrue (by rw [h])
    else .isFalse (fun hc => h (Except.error.inj hc))

/-! ## Properties of the string order used by `sorted` -/

/-- Two characters neither of which is smaller are equal. -/
theorem char_eq_of_not_lt {x y : Char} (h1 : ¬x < y) (h2 : ¬y < x) : x = y :=
  le_antisymm (le_of_not_lt h2) (le_of_not_lt h1)

/-- Comparison `charsLe` is total. -/
theorem charsLe_total : ∀ a b : List Char, charsLe a b = true ∨ charsLe b a = true
  | [], _ => Or.inl rfl
  | _ :: _, [] => Or.inr rfl
  | x :: xs, y :: ys => by
    by_cases hxy : x < y
    · exact Or.inl (by simp [charsLe, hxy])
    · by_cases hyx : y < x
      · exact Or.inr (by simp [charsLe, hyx])
      · rcases charsLe_total xs ys with h | h
        · exact Or.inl (by simp [charsLe, hxy, hyx, h])
        · exact Or.inr (by simp [charsLe, hxy, hyx, h])

/-- Comparison `charsLe` is transitive. -/
theorem charsLe_trans : ∀ a b c : List Char,
    charsLe a b = true → charsLe b c = true → charsLe a c = true
  | [], _, _, _, _ => rfl
  | _ :: _, [], _, hab, _ => by simp [charsLe] at hab
  | _ :: _, _ :: _, [], _, hbc => by simp [charsLe] at hbc
  | x :: xs, y :: ys, z :: zs, hab, hbc => by
    by_cases hxy : x < y
    · by_cases hyz : y < z
      · simp [charsLe, lt_trans hxy hyz]
      · by_cases hzy : z < y
        · simp [charsLe, hyz, hzy] at hbc
        · rw [char_eq_of_not_lt hyz hzy] at hxy
          simp [charsLe, hxy]
    · by_cases hyx : y < x
      · simp [charsLe, hxy, hyx] at hab
      · rw [char_eq_of_not_lt hxy hyx] at hab ⊢
        by_cases hyz : y < z
        · simp [charsLe, hyz]
        · by_cases hzy : z < y
          · simp [charsLe, hyz, hzy] at hbc
          · simp only [charsLe, if_neg hyz, if_neg hzy] at hbc ⊢
            simp only [charsLe, if_neg (lt_irrefl y)] at hab
            exact charsLe_trans xs ys zs hab hbc

/-- Comparison `charsLe` is antisymmetric. -/
theorem charsLe_antisymm : ∀ a b : List Char,
    charsLe a b = true → charsLe b a = true → a = b
  | [], [], _, _ => rfl
  | [], _ :: _, _, hba => by simp [charsLe] at hba
  | _ :: _, [], hab, _ => by simp [charsLe] at hab
  | x :: xs, y :: ys, hab, hba => by
    by_cases hxy : x < y
    · simp [charsLe, hxy, asymm hxy] at hba
    · by_cases hyx : y < x
      · simp [charsLe, hxy, hyx] at hab
      · have hx : x = y := char_eq_of_not_lt hxy hyx
        simp only [charsLe, if_neg hxy, if_neg hyx] at hab
        simp only [charsLe, if_neg hyx, if_neg hxy] at hba
        rw [hx, charsLe_antisymm xs ys hab hba]

instance : IsTotal String strLe := ⟨fun a b => charsLe_total a.data b.data⟩

instance : IsTrans String strLe :=
  ⟨fun a b c => charsLe_trans a.data b.data c.data⟩

instance : IsAntisymm String strLe :=
  ⟨fun a b hab hba => by
    have h := charsLe_antisymm a.data b.data hab hba
    cases a; cases b; exact congrArg String.mk h⟩

/-- Sorting with `sortStrs` maps permuted lists to the same list. -/
theorem sortStrs_perm_eq {l₁ l₂ : List String} (h : l₁.Perm l₂) :
    sortStrs l₁ = sortStrs l₂ :=
  List.eq_of_perm_of_sorted
    ((List.perm_insertionSort strLe l₁).trans
      (h.trans (List.perm_insertionSort strLe l₂).symm))
    (List.sorted_insertionSort strLe l₁)
    (List.sorted_insertionSort strLe l₂)

/-! ## Properties of the substitution scan -/

/-- Scanning an empty text. -/
theorem scanGo_nil (m : Bool → List Char → Option (List Char × Nat))
    (fuel : Nat) (st : Bool) : scanGo m fuel st [] = (0, []) := by
  cases fuel <;> rfl

/-- One scan step at a position where the matcher does not fire. -/
theorem scanGo_cons_none (m : Bool → List Char → Option (List Char × Nat))
    (fuel : Nat) (st : Bool) (c : Char) (cs : List Char)
    (h : m st (c :: cs) = none) :
    scanGo m (fuel + 1) st (c :: cs) =
      ((scanGo m fuel (c == '\n') cs).1, c :: (scanGo m fuel (c == '\n') cs).2) := by
  simp [scanGo, h]

/-- One scan step at a position where the matcher fires. -/
theorem scanGo_cons_some (m : Bool → List Char → Option (List Char × Nat))
    (fuel : Nat) (st : Bool) (c : Char) (cs : List Char) (r : List Char) (k : Nat)
    (h : m st (c :: cs) = some (r, k)) :
    scanGo m (fuel + 1) st (c :: cs) =
      ((scanGo m fuel false (cs.drop (k - 1))).1 + 1,
        r ++ (scanGo m fuel false (cs.drop (k - 1))).2) := by
  simp [scanGo, h]

/-- Result of `scanGo` does not depend on the fuel once the fuel covers the length
of the text (auxiliary form, with an outer bound to recurse on). -/
theorem scanGo_fuel_aux (m : Bool → List Char → Option (List Char × Nat)) :
    ∀ (n fuel : Nat) (st : Bool) (s : List Char), s.length ≤ fuel → fuel ≤ n →
      scanGo m fuel st s = scanGo m s.length st s := by
  intro n
  induction n with
  | zero =>
    intro fuel st s hs hf
    have h0 : fuel = 0 := Nat.le_zero.mp hf
    subst h0
    have : s = [] := List.eq_nil_of_length_eq_zero (Nat.le_zero.mp hs)
    subst this; rfl
  | succ n ih =>
    intro fuel st s hs hf
    cases s with
    | nil => rw [scanGo_nil, scanGo_nil]
    | cons c cs =>
      cases fuel with
      | zero => simp at hs
      | succ f =>
        have hcs : cs.length ≤ f := Nat.le_of_succ_le_succ hs
        have hfn : f ≤ n := Nat.le_of_succ_le_succ hf
        have hcn : cs.length ≤ n := le_trans hcs hfn
        rw [List.length_cons]
        cases hm : m st (c :: cs) with
        | some rk =>
          obtain ⟨r, k⟩ := rk
          have hdl : (cs.drop (k - 1)).length ≤ cs.length := by
            rw [List.length_drop]; exact Nat.sub_le _ _
          rw [scanGo_cons_some m f st c cs r k hm,
            scanGo_cons_some m cs.length st c cs r k hm,
            ih f false (cs.drop (k - 1)) (le_trans hdl hcs) hfn,
            ih cs.length false (cs.drop (k - 1)) hdl hcn]
        | none =>
          rw [scanGo_cons_none m f st c cs hm,
            scanGo_cons_none m cs.length st c cs hm,
            ih f (c == '\n') cs hcs hfn,
            ih cs.length (c == '\n') cs le_rfl hcn]

/-- Result of `scanGo` does not depend on the fuel once the fuel covers the length
of the text. -/
theorem scanGo_fuel (m : Bool → List Char → Option (List Char × Nat))
    (fuel : Nat) (st : Bool) (s : List Char) (h : s.length ≤ fuel) :
    scanGo m fuel st s = scanGo m s.length st s :=
  scanGo_fuel_aux m fuel fuel st s h le_rfl

/-- Scanning past a match-free prefix keeps it verbatim and continues on
the tail with the anchor state the prefix leaves behind. -/
theorem scan_passthru (m : Bool → List Char → Option (List Char × Nat)) :
    ∀ (p : List Char) (st : Bool) (s : List Char),
      noFireThrough m st p s = true →
      reSub m st (p ++ s) =
        ((reSub m (endFlag st p) s).1, p ++ (reSub m (endFlag st p) s).2) := by
  intro p
  induction p with
  | nil => intro st s _; simp [endFlag]
  | cons c cs ih =>
    intro st s h
    simp only [noFireThrough, Bool.and_eq_true, Option.isNone_iff_eq_none] at h
    obtain ⟨hm, h2⟩ := h
    have step : reSub m st ((c :: cs) ++ s) =
        ((scanGo m (cs ++ s).length (c == '\n') (cs ++ s)).1,
          c :: (scanGo m (cs ++ s).length (c == '\n') (cs ++ s)).2) := by
      simp only [reSub, List.cons_append, List.length_cons]
      exact scanGo_cons_none m (cs ++ s).length st c (cs ++ s) hm
    rw [step]
    have := ih (c == '\n') s h2
    simp only [reSub] at this
    rw [this]
    simp [endFlag, reSub]

/-- Scanning at a match consumes it, emits the replacement, and continues
after it with the anchor state off (no pattern of ebuild.py ends its match
with a newline, so `^` cannot fire right after one). -/
theorem scan_fire (m : Bool → List Char → Option (List Char × Nat))
    (x s : List Char) (st : Bool) (r : List Char)
    (hm : m st (x ++ s) = some (r, x.length)) (hx : x ≠ []) :
    reSub m st (x ++ s) =
      ((reSub m false s).1 + 1, r ++ (reSub m false s).2) := by
  cases x with
  | nil => exact absurd rfl hx
  | cons c cs =>
    simp only [List.cons_append, List.length_cons] at hm
    have step : reSub m st ((c :: cs) ++ s) =
        ((scanGo m (cs ++ s).length false ((cs ++ s).drop (cs.length + 1 - 1))).1 + 1,
          r ++ (scanGo m (cs ++ s).length false ((cs ++ s).drop (cs.length + 1 - 1))).2) := by
      simp only [reSub, List.cons_append, List.length_cons]
      exact scanGo_cons_some m (cs ++ s).length st c (cs ++ s) r (cs.length + 1) hm
    have hdrop : (cs ++ s).drop (cs.length + 1 - 1) = s := by
      simp [List.drop_left]
    rw [step, hdrop,
      scanGo_fuel m (cs ++ s).length false s
        (by rw [List.length_append]; exact Nat.le_add_left _ _)]
    rfl

/-- A text the matcher never fires on is returned unchanged with a zero
count. -/
theorem scan_noFire (m : Bool → List Char → Option (List Char × Nat))
    (s : List Char) (st : Bool) (h : noFireThrough m st s [] = true) :
    reSub m st s = (0, s) := by
  have h1 := scan_passthru m s st [] h
  rw [List.append_nil] at h1
  rw [h1]
  simp [reSub, scanGo_nil]

/-- A scan over `p ++ x ++ s` whose only match is `x` (with replacement
`r`): the count is one and the output is `p ++ r ++ s`. -/
theorem scan_unique (m : Bool → List Char → Option (List Char × Nat))
    (p x s r : List Char)
    (hA : noFireThrough m true p (x ++ s) = true)
    (hB : m (endFlag true p) (x ++ s) = some (r, x.length))
    (hx : x ≠ [])
    (hC : noFireThrough m false s [] = true) :
    reSub m true (p ++ (x ++ s)) = (1, p ++ (r ++ s)) := by
  rw [scan_passthru m p true (x ++ s) hA,
    scan_fire m x s (endFlag true p) r hB hx,
    scan_noFire m s false hC]

/-! ## Helper lemmas about the block builders -/

/-- Projection `String.data` distributes over append. -/
theorem string_data_append (a b : String) : (a ++ b).data = a.data ++ b.data := by
  cases a; cases b; rfl

/-- Simplification `simplifyAnd` is invariant under permutation of the operands. -/
theorem simplifyAnd_perm {a b : List String} (h : a.Perm b) :
    simplifyAnd a = simplifyAnd b := by
  unfold simplifyAnd
  by_cases h1 : a = []
  · subst h1
    rw [h.symm.eq_nil]
  · have h2 : b ≠ [] := fun hb => h1 (by rw [hb] at h; exact h.eq_nil)
    rw [if_neg h1, if_neg h2, sortStrs_perm_eq h.dedup]

/-- A crate list with no git crates yields an empty `GIT_CRATES`
assignment. -/
theorem get_GIT_CRATES_of_no_git {crates : List Crate}
    (h : ∀ c ∈ crates, c.isGit = false) : get_GIT_CRATES crates = "" := by
  have hnil : crates.filterMap Crate.gitLine = [] := by
    rw [List.filterMap_eq_nil_iff]
    intro c hc
    cases c with
    | FileCrate n e => rfl
    | GitCrate n e => exact absurd (h _ hc) (by simp [Crate.isGit])
  simp [get_GIT_CRATES, gitCratesLines, hnil, sortStrs, List.insertionSort, pyJoin]

/-- Joining a list whose first element is non-empty is non-empty. -/
theorem pyJoin_cons_ne (sep a : String) (as : List String) (h : a.data ≠ []) :
    (pyJoin sep (a :: as)).data ≠ [] := by
  cases as with
  | nil => simpa [pyJoin] using h
  | cons b rest =>
    simp only [pyJoin, string_data_append]
    intro hc
    exact h (List.append_eq_nil.mp (List.append_eq_nil.mp hc).1).1

/-- A crate list with at least one git crate yields a non-empty
`GIT_CRATES` assignment. -/
theorem get_GIT_CRATES_of_git {crates : List Crate} (c : Crate)
    (hc : c ∈ crates) (hg : c.isGit = true) :
    (get_GIT_CRATES crates).data ≠ [] := by
  cases c with
  | FileCrate n e => simp [Crate.isGit] at hg
  | GitCrate n e =>
    have hmem : ("\t[" ++ n ++ "]=" ++ shlexQuote e) ∈
        crates.filterMap Crate.gitLine :=
      List.mem_filterMap.mpr ⟨_, hc, rfl⟩
    have hsne : gitCratesLines crates ≠ [] := by
      intro hnil
      have hp := List.perm_insertionSort strLe (crates.filterMap Crate.gitLine)
      rw [show List.insertionSort strLe (crates.filterMap Crate.gitLine) =
          gitCratesLines crates from rfl, hnil] at hp
      rw [hp.symm.eq_nil] at hmem
      exact List.not_mem_nil _ hmem
    obtain ⟨a, as, ha⟩ := List.exists_cons_of_ne_nil hsne
    have hamem : a ∈ crates.filterMap Crate.gitLine := by
      have : a ∈ gitCratesLines crates := by rw [ha]; exact List.mem_cons_self a as
      exact (List.perm_insertionSort strLe _).mem_iff.mp this
    obtain ⟨c', _, hl'⟩ := List.mem_filterMap.mp hamem
    have hadata : a.data ≠ [] := by
      cases c' with
      | FileCrate n' e' => exact absurd hl' (by simp [Crate.gitLine])
      | GitCrate n' e' =>
        have : ("\t[" ++ n' ++ "]=" ++ shlexQuote e') = a := by
          simpa [Crate.gitLine] using hl'
        rw [← this]
        simp only [string_data_append]
        intro hcon
        have := (List.append_eq_nil.mp (List.append_eq_nil.mp
          (List.append_eq_nil.mp hcon).1).1).1
        simp at this
    have hvals : pyJoin "\n" (gitCratesLines crates) ≠ "" := by
      rw [ha]
      intro hcon
      exact pyJoin_cons_ne "\n" a as hadata (by rw [hcon])
    simp only [get_GIT_CRATES, if_pos hvals, string_data_append]
    intro hcon
    have := (List.append_eq_nil.mp (List.append_eq_nil.mp hcon).1).1
    simp at this

/-! ## Claim C7: CRATES entries sorted and permutation invariant -/

/-- Claim C7: the `CRATES=` value is built from entry lines that are
sorted lexicographically (by code point, the Python string order), and for
every permutation of the input crate list the rendered value is
identical.  The third conjunct ties the sorted line list to the rendered
value for non-empty input. -/
theorem get_CRATES_sorted_and_perm_invariant :
    (∀ c₁ c₂ : List Crate, c₁.Perm c₂ → get_CRATES c₁ = get_CRATES c₂) ∧
    (∀ c : List Crate, List.Sorted strLe (cratesLines c)) ∧
    (∀ c : List Crate, c ≠ [] →
      get_CRATES c = "\n" ++ pyJoin "\n" (cratesLines c) ++ "\n") := by
  refine ⟨?_, ?_, ?_⟩
  · intro c₁ c₂ h
    by_cases h1 : c₁ = []
    · subst h1
      rw [h.symm.eq_nil]
    · have h2 : c₂ ≠ [] := fun hn => h1 (by rw [hn] at h; exact h.eq_nil)
      have hll : cratesLines c₁ = cratesLines c₂ :=
        sortStrs_perm_eq ((h.filterMap Crate.fileEntry).map (fun e => "\t" ++ e))
      rw [get_CRATES, get_CRATES, if_neg h1, if_neg h2, hll]
  · intro c
    exact List.sorted_insertionSort strLe _
  · intro c h
    rw [get_CRATES, if_neg h]

/-- Witness for C7: two concrete permutations of the same crate list
render the same `CRATES=` value. -/
theorem get_CRATES_sorted_and_perm_invariant_w :
    get_CRATES [Crate.FileCrate "b" "b@1.0", Crate.FileCrate "a" "a@0.1"] =
      get_CRATES [Crate.FileCrate "a" "a@0.1", Crate.FileCrate "b" "b@1.0"] :=
  get_CRATES_sorted_and_perm_invariant.1 _ _ (by decide)

/-! ## Claim C10: git-only crate lists render a double newline -/

/-- Claim C10: a non-empty crate list consisting only of git crates
renders `CRATES=` as two newline characters (the empty-list branch is not
taken, and the file-crate entry list is empty). -/
theorem get_CRATES_git_only (c : List Crate) (h1 : c ≠ [])
    (h2 : ∀ x ∈ c, x.isGit = true) : get_CRATES c = "\n\n" := by
  have hnil : c.filterMap Crate.fileEntry = [] := by
    rw [List.filterMap_eq_nil_iff]
    intro x hx
    cases x with
    | FileCrate n e => exact absurd (h2 _ hx) (by simp [Crate.isGit])
    | GitCrate n e => rfl
  rw [get_CRATES, if_neg h1]
  simp [cratesLines, hnil, sortStrs, List.insertionSort, pyJoin]

/-- Witness for C10 at a concrete git-only crate list. -/
theorem get_CRATES_git_only_w :
    get_CRATES [Crate.GitCrate "g" "https://g"] = "\n\n" :=
  get_CRATES_git_only _ (by decide) (by decide)

/-! ## Claim C8: empty crate list and crate-tarball mode -/

/-- Claim C8: rendering with an empty crate list yields a `CRATES` value
of exactly one newline, and with `crate_tarball` set `get_ebuild` renders
the `CRATES` field from the empty crate list — the same single newline —
while every other field is computed from the full inputs. -/
theorem get_ebuild_tarball_single_newline :
    get_CRATES ([] : List Crate) = "\n" ∧
    ∀ (year ver : String) (pkgFmt : String → String)
      (licenseOf : Crate → Option String) (fmt : List String → String)
      (pkg : PackageMetadata) (crates : List Crate) (crateLicense : Bool)
      (tb : String),
      get_ebuild year ver pkgFmt licenseOf fmt pkg crates crateLicense (some tb) =
        ebuildText year ver "\n" (get_GIT_CRATES crates)
          (bash_dquote_escape (collapse_whitespace (pkg.description.getD "")))
          (url_dquote_escape (pkg.homepage.getD ""))
          (tarballPart (some tb))
          (get_package_LICENSE pkgFmt pkg.license)
          crateLicense
          (get_crate_LICENSE licenseOf fmt crates) := by
  constructor
  · rfl
  · intro year ver pkgFmt licenseOf fmt pkg crates crateLicense tb
    rfl

/-! ## Claim C3: crate license aggregation is order independent -/

/-- Claim C3: the rendered `LICENSE+=` value of `get_crate_LICENSE` is
deterministic and independent of the enumeration order of the contributed
license set: permuting the crate list (and with it the enumeration of the
deduplicated license set) leaves the result unchanged, for every choice of
per-crate license lookup and every deterministic rendering function. -/
theorem get_crate_LICENSE_perm_invariant (licenseOf : Crate → Option String)
    (fmt : List String → String) (c₁ c₂ : List Crate) (h : c₁.Perm c₂) :
    get_crate_LICENSE licenseOf fmt c₁ = get_crate_LICENSE licenseOf fmt c₂ := by
  have hperm : ((c₁.filterMap licenseOf).dedup).Perm ((c₂.filterMap licenseOf).dedup) :=
    (h.filterMap licenseOf).dedup
  unfold get_crate_LICENSE
  simp only [simplifyAnd_perm hperm]

/-- Witness for C3: two enumeration orders of the license set
`{MIT, Apache-2.0}` render identically. -/
theorem get_crate_LICENSE_perm_invariant_w :
    get_crate_LICENSE Crate.fileEntry (pyJoin " AND ")
        [Crate.FileCrate "a" "MIT", Crate.FileCrate "b" "Apache-2.0"] =
      get_crate_LICENSE Crate.fileEntry (pyJoin " AND ")
        [Crate.FileCrate "b" "Apache-2.0", Crate.FileCrate "a" "MIT"] :=
  get_crate_LICENSE_perm_invariant _ _ _ _ (by decide)

/-! ## Claim C9: empty license set renders the empty string -/

/-- Claim C9: when no crate contributes a license string (the crate list
is empty, or every lookup returns `none`), `get_crate_LICENSE` returns the
empty string — the parse of the empty combination yields nothing and no
assignment value is emitted. -/
theorem get_crate_LICENSE_empty (licenseOf : Crate → Option String)
    (fmt : List String → String) (crates : List Crate)
    (h : crates.filterMap licenseOf = []) :
    get_crate_LICENSE licenseOf fmt crates = "" := by
  unfold get_crate_LICENSE
  rw [h]
  rfl

/-- Witness for C9: crates that contribute nothing render the empty
string. -/
theorem get_crate_LICENSE_empty_w :
    get_crate_LICENSE (fun _ => none) (pyJoin " AND ")
      [Crate.GitCrate "g" "x"] = "" :=
  get_crate_LICENSE_empty _ _ _ (by decide)

/-! ## Claim C4: CRATES= match-count mismatch is fatal -/

/-- Claim C4: whenever the anchored `CRATES=` pattern matches the input
document a number of times other than exactly one, `update_ebuild` returns
the `assert_count` error naming the variable and the found versus expected
counts, and no patched document. -/
theorem update_ebuild_crates_count_mismatch
    (licenseOf : Crate → Option String) (fmt : List String → String)
    (ebuild : String) (crates : List Crate) (crateLicense : Bool)
    (tb : Option String) (c : Nat)
    (hc : c = (reSub (cratesMatcher
        (get_CRATES (if tb.isSome then [] else crates)).data) true ebuild.data).1)
    (hne : c ≠ 1) :
    update_ebuild licenseOf fmt ebuild crates crateLicense tb =
      Except.error (assertMsg "CRATES=" c 1) := by
  subst hc
  unfold update_ebuild updateCore
  rw [if_pos hne]

/-- Witness for C4: a document with no `CRATES=` assignment at all (zero
matches) produces the count-mismatch error. -/
theorem update_ebuild_crates_count_mismatch_w :
    update_ebuild (fun _ => none) (pyJoin " AND ") "no crates here\n" []
        true none = Except.error "CRATES= matched 0 times, 1 expected" := by
  have h := update_ebuild_crates_count_mismatch (fun _ => none)
    (pyJoin " AND ") "no crates here\n" [] true none 0 (by decide) (by decide)
  exact h

/-! ## Claim C2: the value body is matched lazily, not greedily -/

/-- A candidate closing delimiter inside a value body: the delimiter
character at position `j`, followed by a newline or the end of the text
(the `$` of the anchored patterns under `re.MULTILINE`). -/
def isCloserAt (delim : Char) (s : List Char) (j : Nat) : Prop :=
  s[j]? = some delim ∧ (s[j + 1]? = some '\n' ∨ j + 1 = s.length)

instance (delim : Char) (s : List Char) (j : Nat) :
    Decidable (isCloserAt delim s j) := by
  unfold isCloserAt; infer_instance

/-- Claim C2, counterexample: on a document whose `CRATES=` value region
offers two candidate closing quotes at ends of lines (after `a` and after
`b`), the engine's match consumes 10 characters — up to the *first*
candidate — although a later candidate exists at body offset 4 (a match
extending to the last candidate would consume 13 characters).  The value
body is matched lazily, not greedily. -/
theorem crates_value_matched_lazily_cex :
    ((cratesMatcher "\n".data true "CRATES=\"a\"\nb\"\n".data).map Prod.snd
      = some 10) ∧
    isCloserAt '"' ("CRATES=\"a\"\nb\"\n".data.drop 8) 4 ∧
    (10 : Nat) ≠ 8 + 4 + 1 := by
  refine ⟨by decide, by decide, by decide⟩

/-- Claim C2 (amended): the lazy body search `findCloseLen` shared by all
anchored patterns stops at the *first* candidate closing delimiter at an
end of line: when it returns `k`, position `k - 1` is a candidate closer
and no earlier position is.  (The body may still span several lines — any
newline before the first candidate is simply part of the body.) -/
theorem findCloseLen_lazy (delim : Char) : ∀ (s : List Char) (k : Nat),
    findCloseLen delim s = some k →
    1 ≤ k ∧ isCloserAt delim s (k - 1) ∧
      ∀ j, j + 1 < k → ¬isCloserAt delim s j := by
  intro s
  induction s with
  | nil => intro k hk; simp [findCloseLen] at hk
  | cons c cs ih =>
    intro k hk
    by_cases hcond : (c == delim && (cs.isEmpty || cs.head? == some '\n')) = true
    · rw [findCloseLen, if_pos hcond] at hk
      obtain rfl : (1 : Nat) = k := Option.some.inj hk
      simp only [Bool.and_eq_true, beq_iff_eq, Bool.or_eq_true,
        List.isEmpty_iff] at hcond
      obtain ⟨rfl, h2⟩ := hcond
      refine ⟨le_rfl, ?_, fun j hj => absurd hj (by omega)⟩
      unfold isCloserAt
      have h0 : (1 : Nat) - 1 = 0 := rfl
      rw [h0]
      refine ⟨by simp, ?_⟩
      rcases h2 with h2 | h2
      · subst h2; right; rfl
      · left
        cases cs with
        | nil => simp at h2
        | cons d ds =>
          simp only [List.head?_cons, Option.some.injEq] at h2
          subst h2
          simp
    · rw [findCloseLen, if_neg hcond] at hk
      cases hfc : findCloseLen delim cs with
      | none => rw [hfc] at hk; simp at hk
      | some k' =>
        rw [hfc] at hk
        simp only [Option.map_some'] at hk
        obtain rfl : k' + 1 = k := Option.some.inj hk
        obtain ⟨hk1, hcl, hno⟩ := ih k' hfc
        simp only [Bool.and_eq_true, beq_iff_eq, Bool.or_eq_true,
          List.isEmpty_iff, not_and_or] at hcond
        refine ⟨le_trans hk1 (Nat.le_succ _), ?_, ?_⟩
        · have hks : k' + 1 - 1 = (k' - 1) + 1 := by omega
          rw [hks]
          unfold isCloserAt at hcl ⊢
          simp only [List.getElem?_cons_succ, List.length_cons]
          refine ⟨hcl.1, ?_⟩
          rcases hcl.2 with h | h
          · exact Or.inl h
          · exact Or.inr (by omega)
        · intro j hj
          cases j with
          | zero =>
            intro hcl0
            unfold isCloserAt at hcl0
            obtain ⟨hc0, h2⟩ := hcl0
            simp only [List.getElem?_cons_zero, Option.some.injEq] at hc0
            rcases hcond with h | h
            · exact h hc0
            · apply h
              rcases h2 with h2 | h2
              · right
                cases cs with
                | nil => simp at h2
                | cons d ds => simpa using h2
              · left
                simp only [List.length_cons] at h2
                have hl0 : cs.length = 0 := by omega
                exact List.eq_nil_of_length_eq_zero hl0
          | succ j' =>
            intro hclj
            unfold isCloserAt at hclj
            simp only [List.getElem?_cons_succ, List.length_cons] at hclj
            refine hno j' (by omega) ⟨hclj.1, ?_⟩
            rcases hclj.2 with h | h
            · exact Or.inl h
            · exact Or.inr (by omega)

/-- Witness for the amended C2 at a concrete body with two candidate
closers, the first of them after an embedded newline. -/
theorem findCloseLen_lazy_w :
    1 ≤ 3 ∧ isCloserAt '"' "a\n\"\nb\"".data (3 - 1) ∧
      ∀ j, j + 1 < 3 → ¬isCloserAt '"' "a\n\"\nb\"".data j :=
  findCloseLen_lazy '"' "a\n\"\nb\"".data 3 (by decide)

/-! ## The update pipeline, pass by pass -/

/-- Behaviour of `updateCore` in terms of the results of its three substitution
passes. -/
theorem updateCore_spec (cratesVal gitVal licVal : List Char)
    (crateLicense : Bool) (doc d1 d2 d3 : List Char) (c1 c2 c3 : Nat)
    (h1 : reSub (cratesMatcher cratesVal) true doc = (c1, d1))
    (h2 : reSub (gitMatcher gitVal) true d1 = (c2, d2))
    (h3 : reSub (licMatcher licVal) true d2 = (c3, d3)) :
    updateCore cratesVal gitVal licVal crateLicense doc =
      (if c1 ≠ 1 then Except.error (assertMsg "CRATES=" c1 1)
       else if c3 ≠ (if crateLicense then 1 else 0) then
         Except.error (assertMsg "Crate LICENSE+= (with marker comment)" c3
           (if crateLicense then 1 else 0))
       else if c2 = 0 then
         if gitVal ≠ [] then
           if (reSub (appendMatcher gitVal) true d3).1 ≠ 1 then
             Except.error (assertMsg "CRATES= (while appending GIT_CRATES=)"
               (reSub (appendMatcher gitVal) true d3).1 1)
           else Except.ok (reSub (appendMatcher gitVal) true d3).2
         else Except.ok d3
       else if c2 ≠ 1 then Except.error (assertMsg "GIT_CRATES=" c2 1)
       else Except.ok d3) := by
  simp only [updateCore, h1, h2, h3]

/-! ## Claim C5: removing an obsolete GIT_CRATES block -/

/-- Claim C5, counterexample: a document that does contain a `GIT_CRATES`
`declare -A` block exactly once (first conjunct: the engine's pass finds
it exactly once), updated with a crate list with zero git crates, does not
have the block removed with everything else intact — the update aborts
with the `CRATES=` count error and returns no document, because the claim
as stated quantifies over all documents, including ones without a valid
`CRATES=` region. -/
theorem update_git_removal_cex :
    (reSub (gitMatcher (get_GIT_CRATES ([] : List Crate)).data) true
        "\n\ndeclare -A GIT_CRATES=(x)\n".data).1 = 1 ∧
    update_ebuild (fun _ => none) (pyJoin " AND ")
        "\n\ndeclare -A GIT_CRATES=(x)\n" [] false none =
      Except.error "CRATES= matched 0 times, 1 expected" := by
  refine ⟨by decide, ?_⟩
  have h := update_ebuild_crates_count_mismatch (fun _ => none)
    (pyJoin " AND ") "\n\ndeclare -A GIT_CRATES=(x)\n" [] false none 0
    (by decide) (by decide)
  exact h

/-- Claim C5 (amended): updating a document of the form `p ++ x ++ s`,
where `x` is the unique `GIT_CRATES` block together with its leading
newline separator (`hA`/`hB`/`hC`: the block pattern fires exactly there)
and where the `CRATES=` and crate-license passes find their regions
exactly the expected number of times and leave them byte-identical
(`hcr`/`hlic`), with a crate list containing zero git crates, removes
exactly `x` — the result is `p ++ s`, every other byte unchanged. -/
theorem update_git_removal (licenseOf : Crate → Option String)
    (fmt : List String → String) (crates : List Crate) (crateLicense : Bool)
    (tb : Option String) (p x s : List Char)
    (hng : ∀ c ∈ crates, c.isGit = false)
    (hcr : reSub (cratesMatcher (get_CRATES (if tb.isSome then [] else crates)).data)
        true (p ++ (x ++ s)) = (1, p ++ (x ++ s)))
    (hA : noFireThrough (gitMatcher []) true p (x ++ s) = true)
    (hB : gitMatcher [] (endFlag true p) (x ++ s) = some ([], x.length))
    (hx : x ≠ [])
    (hC : noFireThrough (gitMatcher []) false s [] = true)
    (hlic : reSub (licMatcher (get_crate_LICENSE licenseOf fmt crates).data)
        true (p ++ s) = ((if crateLicense then 1 else 0), p ++ s)) :
    update_ebuild licenseOf fmt (String.mk (p ++ (x ++ s))) crates crateLicense tb =
      Except.ok (String.mk (p ++ s)) := by
  have hgv : get_GIT_CRATES crates = "" := get_GIT_CRATES_of_no_git hng
  have hgd : (get_GIT_CRATES crates).data = [] := by rw [hgv]
  have hgit : reSub (gitMatcher (get_GIT_CRATES crates).data) true (p ++ (x ++ s)) =
      (1, p ++ s) := by
    rw [hgd]
    have h := scan_unique (gitMatcher []) p x s [] hA hB hx hC
    simpa using h
  have hspec := updateCore_spec
    (get_CRATES (if tb.isSome then [] else crates)).data
    (get_GIT_CRATES crates).data
    (get_crate_LICENSE licenseOf fmt crates).data
    crateLicense (p ++ (x ++ s)) (p ++ (x ++ s)) (p ++ s) (p ++ s)
    1 1 (if crateLicense then 1 else 0) hcr hgit hlic
  unfold update_ebuild
  rw [show (String.mk (p ++ (x ++ s))).data = p ++ (x ++ s) from rfl, hspec]
  simp

/-- Witness for the amended C5: a concrete document loses exactly its
`GIT_CRATES` block and the blank-line separator before it. -/
theorem update_git_removal_w :
    update_ebuild (fun _ => none) (pyJoin " AND ")
        (String.mk ("CRATES=\"\n\"".data ++
          ("\n\ndeclare -A GIT_CRATES=(\n\t[z]=q\n)".data ++ "\nX\n".data)))
        [] false none =
      Except.ok (String.mk ("CRATES=\"\n\"".data ++ "\nX\n".data)) :=
  update_git_removal (fun _ => none) (pyJoin " AND ") [] false none
    "CRATES=\"\n\"".data "\n\ndeclare -A GIT_CRATES=(\n\t[z]=q\n)".data
    "\nX\n".data (by decide) (by decide) (by decide) (by decide) (by decide)
    (by decide) (by decide)

/-! ## Claim C6: inserting a fresh GIT_CRATES block -/

/-- Claim C6, counterexample: a document with no `GIT_CRATES` block
(first conjunct: the block pass finds zero matches), updated with a crate
list containing one git crate, gets the new block inserted after the
`CRATES=` closing quote, but the rest is *not* byte-identical: the stale
`CRATES=` value `old` is rewritten to the freshly computed value at the
same time, so the result differs from the insertion-only document. -/
theorem update_git_insertion_cex :
    (reSub (gitMatcher (get_GIT_CRATES [Crate.GitCrate "a" "b"]).data) true
        "CRATES=\"old\"\n".data).1 = 0 ∧
    update_ebuild (fun _ => none) (pyJoin " AND ") "CRATES=\"old\"\n"
        [Crate.GitCrate "a" "b"] false none =
      Except.ok "CRATES=\"\n\n\"\n\ndeclare -A GIT_CRATES=(\n\t[a]=b\n)\n" ∧
    ("CRATES=\"\n\n\"\n\ndeclare -A GIT_CRATES=(\n\t[a]=b\n)\n" : String) ≠
      "CRATES=\"old\"\n\ndeclare -A GIT_CRATES=(\n\t[a]=b\n)\n" := by
  refine ⟨by decide, by decide, by decide⟩

/-- Claim C6 (amended): for a crate list with at least one git crate
(`hc0`/`hg`), first conjunct: when the document has no `GIT_CRATES` block
and the `CRATES=` and crate-license passes find their regions exactly the
expected number of times and leave them byte-identical, the update inserts
the freshly built block immediately after the `CRATES=` assignment's
closing quote (the unique firing position of the append anchor) and leaves
everything else byte-identical.  Second conjunct: for every document on
which the three substitution passes yield the expected counts (`CRATES=`
once, no `GIT_CRATES` block, crate-license as enabled) but the insertion
anchor then matches the substituted document a number of times `c4` other
than one — reachable, e.g. when the freshly substituted `CRATES=` value
itself contains a line forming a second anchored region — the update
returns the named count-mismatch error and no document. -/
theorem update_git_insertion (licenseOf : Crate → Option String)
    (fmt : List String → String) (crates : List Crate) (crateLicense : Bool)
    (tb : Option String) (c0 : Crate)
    (hc0 : c0 ∈ crates) (hg : c0.isGit = true) :
    (∀ p x s : List Char,
      reSub (cratesMatcher (get_CRATES (if tb.isSome then [] else crates)).data)
          true (p ++ (x ++ s)) = (1, p ++ (x ++ s)) →
      noFireThrough (gitMatcher (get_GIT_CRATES crates).data) true
          (p ++ (x ++ s)) [] = true →
      reSub (licMatcher (get_crate_LICENSE licenseOf fmt crates).data)
          true (p ++ (x ++ s)) = ((if crateLicense then 1 else 0), p ++ (x ++ s)) →
      noFireThrough (appendMatcher (get_GIT_CRATES crates).data) true p
          (x ++ s) = true →
      appendMatcher (get_GIT_CRATES crates).data (endFlag true p) (x ++ s) =
          some (x ++ (get_GIT_CRATES crates).data, x.length) →
      x ≠ [] →
      noFireThrough (appendMatcher (get_GIT_CRATES crates).data) false s [] = true →
      update_ebuild licenseOf fmt (String.mk (p ++ (x ++ s))) crates crateLicense tb =
        Except.ok (String.mk (p ++ ((x ++ (get_GIT_CRATES crates).data) ++ s)))) ∧
    ∀ (other : String) (c4 : Nat),
      (reSub (cratesMatcher (get_CRATES (if tb.isSome then [] else crates)).data)
          true other.data).1 = 1 →
      (reSub (gitMatcher (get_GIT_CRATES crates).data) true
        (reSub (cratesMatcher (get_CRATES (if tb.isSome then [] else crates)).data)
          true other.data).2).1 = 0 →
      (reSub (licMatcher (get_crate_LICENSE licenseOf fmt crates).data) true
        (reSub (gitMatcher (get_GIT_CRATES crates).data) true
          (reSub (cratesMatcher (get_CRATES (if tb.isSome then [] else crates)).data)
            true other.data).2).2).1 = (if crateLicense then 1 else 0) →
      c4 = (reSub (appendMatcher (get_GIT_CRATES crates).data) true
        (reSub (licMatcher (get_crate_LICENSE licenseOf fmt crates).data) true
          (reSub (gitMatcher (get_GIT_CRATES crates).data) true
            (reSub (cratesMatcher (get_CRATES (if tb.isSome then [] else crates)).data)
              true other.data).2).2).2).1 →
      c4 ≠ 1 →
      update_ebuild licenseOf fmt other crates crateLicense tb =
        Except.error (assertMsg "CRATES= (while appending GIT_CRATES=)" c4 1) := by
  have hgvne : (get_GIT_CRATES crates).data ≠ [] := get_GIT_CRATES_of_git c0 hc0 hg
  constructor
  · intro p x s hcr hnog hlic hA hB hx hC
    have hgit : reSub (gitMatcher (get_GIT_CRATES crates).data) true (p ++ (x ++ s)) =
        (0, p ++ (x ++ s)) := scan_noFire _ _ _ hnog
    have happ := scan_unique (appendMatcher (get_GIT_CRATES crates).data) p x s
      (x ++ (get_GIT_CRATES crates).data) hA hB hx hC
    have hspec := updateCore_spec
      (get_CRATES (if tb.isSome then [] else crates)).data
      (get_GIT_CRATES crates).data
      (get_crate_LICENSE licenseOf fmt crates).data
      crateLicense (p ++ (x ++ s)) (p ++ (x ++ s)) (p ++ (x ++ s)) (p ++ (x ++ s))
      1 0 (if crateLicense then 1 else 0) hcr hgit hlic
    unfold update_ebuild
    rw [show (String.mk (p ++ (x ++ s))).data = p ++ (x ++ s) from rfl, hspec, happ]
    simp [hgvne]
  · intro other c4 h1 h2 h3 hc4 hne
    have hspec := updateCore_spec
      (get_CRATES (if tb.isSome then [] else crates)).data
      (get_GIT_CRATES crates).data
      (get_crate_LICENSE licenseOf fmt crates).data
      crateLicense other.data
      (reSub (cratesMatcher (get_CRATES (if tb.isSome then [] else crates)).data)
        true other.data).2
      (reSub (gitMatcher (get_GIT_CRATES crates).data) true
        (reSub (cratesMatcher (get_CRATES (if tb.isSome then [] else crates)).data)
          true other.data).2).2
      (reSub (licMatcher (get_crate_LICENSE licenseOf fmt crates).data) true
        (reSub (gitMatcher (get_GIT_CRATES crates).data) true
          (reSub (cratesMatcher (get_CRATES (if tb.isSome then [] else crates)).data)
            true other.data).2).2).2
      (reSub (cratesMatcher (get_CRATES (if tb.isSome then [] else crates)).data)
        true other.data).1
      (reSub (gitMatcher (get_GIT_CRATES crates).data) true
        (reSub (cratesMatcher (get_CRATES (if tb.isSome then [] else crates)).data)
          true other.data).2).1
      (reSub (licMatcher (get_crate_LICENSE licenseOf fmt crates).data) true
        (reSub (gitMatcher (get_GIT_CRATES crates).data) true
          (reSub (cratesMatcher (get_CRATES (if tb.isSome then [] else crates)).data)
            true other.data).2).2).1
      rfl rfl rfl
    unfold update_ebuild
    rw [hspec, h1, h2, h3]
    subst hc4
    simp [hgvne, hne]

/-- Witness for the amended C6, exercising both halves: a concrete
document with no `GIT_CRATES` block gains exactly the freshly built block
right after the `CRATES=` closing quote; and a crate list whose file-crate
entry contains a quote-newline-`CRATES="` sequence makes the substituted
value form a second anchored region, so the append anchor fires twice and
the update returns the named count error. -/
theorem update_git_insertion_w :
    (update_ebuild (fun _ => none) (pyJoin " AND ")
        (String.mk (([] : List Char) ++ ("CRATES=\"\n\n\"".data ++ "\nX\n".data)))
        [Crate.GitCrate "a" "b"] false none =
      Except.ok (String.mk (([] : List Char) ++
        (("CRATES=\"\n\n\"".data ++ (get_GIT_CRATES [Crate.GitCrate "a" "b"]).data) ++
          "\nX\n".data)))) ∧
    update_ebuild (fun _ => none) (pyJoin " AND ") "CRATES=\"\"\nX\n"
        [Crate.GitCrate "a" "b", Crate.FileCrate "x" "a\"\nCRATES=\"b"]
        false none =
      Except.error (assertMsg "CRATES= (while appending GIT_CRATES=)" 2 1) :=
  ⟨(update_git_insertion (fun _ => none) (pyJoin " AND ") [Crate.GitCrate "a" "b"]
      false none (Crate.GitCrate "a" "b") (by decide) (by decide)).1
      [] "CRATES=\"\n\n\"".data "\nX\n".data (by decide) (by decide) (by decide)
      (by decide) (by decide) (by decide) (by decide),
    (update_git_insertion (fun _ => none) (pyJoin " AND ")
      [Crate.GitCrate "a" "b", Crate.FileCrate "x" "a\"\nCRATES=\"b"]
      false none (Crate.GitCrate "a" "b") (by decide) (by decide)).2
      "CRATES=\"\"\nX\n" 2 (by decide) (by decide) (by decide) (by decide)
      (by decide)⟩

/-! ## Claim C1: render-then-update round trip -/

set_option maxRecDepth 40000 in
/-- Claim C1, counterexample: the round trip is not the identity for
every input.  With a crate whose entry string ends in a double quote, the
lazily matched `CRATES=` body of the freshly rendered document closes at
that embedded quote rather than at the real closing quote, and the update
re-inserts the full value before the leftover tail: the updated document
differs from the rendered one although the inputs are identical. -/
theorem render_update_roundtrip_cex :
    update_ebuild (fun _ => none) (pyJoin " AND ")
        (get_ebuild "2026" "0.1" (fun _ => "") (fun _ => none) (pyJoin " AND ")
          ⟨none, none, none⟩ [Crate.FileCrate "x" "bad\""] false none)
        [Crate.FileCrate "x" "bad\""] false none ≠
      Except.ok (get_ebuild "2026" "0.1" (fun _ => "") (fun _ => none)
        (pyJoin " AND ") ⟨none, none, none⟩ [Crate.FileCrate "x" "bad\""]
        false none) := by
  decide

/-- Claim C1 (amended): rendering an ebuild with `get_ebuild` and passing
the result to `update_ebuild` with the identical inputs returns the
document unchanged, byte for byte, whenever the anchored passes re-locate
exactly the regions the renderer emitted: the `CRATES=` pass and the
crate-license pass find their regions the expected number of times and
reproduce them byte-identically, and the `GIT_CRATES` pass either finds
the one rendered block and reproduces it (`c2 = 1`) or finds nothing
while no block is needed (`c2 = 0` with an empty computed block).  These
hypotheses hold for the benign inputs of practice and fail exactly on
inputs like the counterexample's quote-bearing crate entry. -/
theorem render_update_roundtrip (year ver : String) (pkgFmt : String → String)
    (licenseOf : Crate → Option String) (fmt : List String → String)
    (pkg : PackageMetadata) (crates : List Crate) (crateLicense : Bool)
    (tb : Option String) (doc : String) (c2 : Nat)
    (hdoc : doc = get_ebuild year ver pkgFmt licenseOf fmt pkg crates
      crateLicense tb)
    (hcr : reSub (cratesMatcher (get_CRATES (if tb.isSome then [] else crates)).data)
        true doc.data = (1, doc.data))
    (hgit : reSub (gitMatcher (get_GIT_CRATES crates).data) true doc.data =
        (c2, doc.data))
    (hc2 : c2 = 1 ∨ (c2 = 0 ∧ (get_GIT_CRATES crates).data = []))
    (hlic : reSub (licMatcher (get_crate_LICENSE licenseOf fmt crates).data)
        true doc.data = ((if crateLicense then 1 else 0), doc.data)) :
    update_ebuild licenseOf fmt doc crates crateLicense tb = Except.ok doc := by
  subst hdoc
  have hspec := updateCore_spec
    (get_CRATES (if tb.isSome then [] else crates)).data
    (get_GIT_CRATES crates).data
    (get_crate_LICENSE licenseOf fmt crates).data
    crateLicense _ _ _ _ 1 c2 (if crateLicense then 1 else 0) hcr hgit hlic
  unfold update_ebuild
  rw [hspec]
  rcases hc2 with rfl | ⟨rfl, hgv⟩
  · simp
  · simp [hgv]

set_option maxRecDepth 40000 in
/-- Witness for the amended C1: a full render-then-update round trip on a
rich benign input (two file crates, one git crate, collapsed description,
URL-escaped homepage, crate licenses enabled) is the identity. -/
theorem render_update_roundtrip_w :
    update_ebuild (fun _ => some "MIT") (pyJoin " AND ")
        (get_ebuild "2026" "0.1" id (fun _ => some "MIT") (pyJoin " AND ")
          ⟨some "desc here", some "https://x", some "MIT"⟩
          [Crate.FileCrate "b" "b@1.0", Crate.FileCrate "a" "a@0.1",
            Crate.GitCrate "g" "https://g/#x"] true none)
        [Crate.FileCrate "b" "b@1.0", Crate.FileCrate "a" "a@0.1",
          Crate.GitCrate "g" "https://g/#x"] true none =
      Except.ok (get_ebuild "2026" "0.1" id (fun _ => some "MIT")
        (pyJoin " AND ") ⟨some "desc here", some "https://x", some "MIT"⟩
        [Crate.FileCrate "b" "b@1.0", Crate.FileCrate "a" "a@0.1",
          Crate.GitCrate "g" "https://g/#x"] true none) :=
  render_update_roundtrip "2026" "0.1" id (fun _ => some "MIT")
    (pyJoin " AND ") ⟨some "desc here", some "https://x", some "MIT"⟩
    [Crate.FileCrate "b" "b@1.0", Crate.FileCrate "a" "a@0.1",
      Crate.GitCrate "g" "https://g/#x"] true none _ 1 rfl
    (by decide) (by decide) (Or.inl rfl) (by decide)

end Pycargoebuild
